import Mathlib

/-!
Shallow embedding of the MCU1→MCU2 communication protocol
(`src/src/main.rs`): `Message` with an XOR checksum, `CircularBuffer`
with a drop-oldest eviction policy, and the `CommunicationProtocol`
orchestrating send/receive.  Bytes are modelled as `Nat` (values below
256 where relevant), `u16` arithmetic as `Nat` with explicit `% 65536`,
and the `VecDeque` as a `List` whose head is the front of the queue.
Mutating Rust methods become pure functions returning the updated
structure together with the original return value.
-/

/-- A message: id (`u16`), payload (byte vector), checksum (`u8`). -/
structure Message where
  id : Nat
  payload : List Nat
  checksum : Nat
deriving DecidableEq, Repr

namespace Message

/-- XOR checksum of the payload bytes: `payload.iter().fold(0, |acc, byte| acc ^ byte)`. -/
def calculate_checksum (payload : List Nat) : Nat :=
  payload.foldl (fun acc byte => acc ^^^ byte) 0

/-- Rust `Message::new`: stores the payload together with its computed checksum. -/
def new (id : Nat) (payload : List Nat) : Message :=
  let checksum := calculate_checksum payload
  { id := id, payload := payload, checksum := checksum }

/-- Rust `Message::verify_checksum`: recomputes the checksum and compares with the stored one. -/
def verify_checksum (m : Message) : Bool :=
  m.checksum == calculate_checksum m.payload

end Message

/-- The shared circular buffer: queue of messages (head = front),
fixed capacity, cumulative write and read counters. -/
structure CircularBuffer where
  buffer : List Message
  capacity : Nat
  write_count : Nat
  read_count : Nat
deriving DecidableEq, Repr

namespace CircularBuffer

/-- Rust `CircularBuffer::new`: empty queue, zero counters, the given capacity. -/
def new (capacity : Nat) : CircularBuffer :=
  { buffer := [], capacity := capacity, write_count := 0, read_count := 0 }

/-- Rust `CircularBuffer::send_message`: if the buffer is full, pop the front
(oldest) entry, then push the message at the back and bump `write_count`.
Always returns `Ok(())`. -/
def send_message (cb : CircularBuffer) (message : Message) :
    CircularBuffer × Except String Unit :=
  let buf := if cb.buffer.length ≥ cb.capacity then cb.buffer.tail else cb.buffer
  ({ cb with buffer := buf ++ [message], write_count := cb.write_count + 1 },
   Except.ok ())

/-- Rust `CircularBuffer::receive_message`: pop the front entry if any,
bumping `read_count` on success. -/
def receive_message (cb : CircularBuffer) : CircularBuffer × Option Message :=
  match cb.buffer with
  | [] => (cb, none)
  | message :: rest =>
      ({ cb with buffer := rest, read_count := cb.read_count + 1 }, some message)

/-- Rust `CircularBuffer::is_empty`. -/
def is_empty (cb : CircularBuffer) : Bool :=
  cb.buffer.isEmpty

/-- Rust `CircularBuffer::is_full`: `buffer.len() >= capacity`. -/
def is_full (cb : CircularBuffer) : Bool :=
  decide (cb.buffer.length ≥ cb.capacity)

/-- Rust `CircularBuffer::length`. -/
def length (cb : CircularBuffer) : Nat :=
  cb.buffer.length

end CircularBuffer

/-- The protocol: one owned buffer plus the `next_message` id counter (`u16`). -/
structure CommunicationProtocol where
  shared_buffer : CircularBuffer
  next_message : Nat
deriving DecidableEq, Repr

namespace CommunicationProtocol

/-- Rust `CommunicationProtocol::new`: fresh buffer of the given capacity, `next_message = 1`. -/
def new (buffer_capacity : Nat) : CommunicationProtocol :=
  { shared_buffer := CircularBuffer.new buffer_capacity, next_message := 1 }

/-- Rust `CommunicationProtocol::mcu1_send`: build the message with the current
`next_message` id, push it, advance the counter with `wrapping_add(1)`
(modelled as `% 65536`), and return the assigned id. -/
def mcu1_send (p : CommunicationProtocol) (payload : List Nat) :
    CommunicationProtocol × Except String Nat :=
  let message := Message.new p.next_message payload
  let message_id := p.next_message
  match p.shared_buffer.send_message message with
  | (buf, Except.ok ()) =>
      ({ shared_buffer := buf, next_message := (p.next_message + 1) % 65536 },
       Except.ok message_id)
  | (buf, Except.error e) =>
      ({ p with shared_buffer := buf }, Except.error e)

/-- Rust `CommunicationProtocol::mcu2_receive`: pop the oldest message; when one
is available, return it paired with its checksum verdict. -/
def mcu2_receive (p : CommunicationProtocol) :
    CommunicationProtocol × Option (Message × Bool) :=
  match p.shared_buffer.receive_message with
  | (buf, some message) =>
      ({ p with shared_buffer := buf }, some (message, message.verify_checksum))
  | (buf, none) =>
      ({ p with shared_buffer := buf }, none)

/-- Rust `CommunicationProtocol::get_buffer_status`. -/
def get_buffer_status (p : CommunicationProtocol) : Nat × Bool × Bool :=
  (p.shared_buffer.length, p.shared_buffer.is_empty, p.shared_buffer.is_full)

end CommunicationProtocol

/-- Push a whole list of messages in order, discarding the (always-`ok`) results. -/
def pushAll (cb : CircularBuffer) (msgs : List Message) : CircularBuffer :=
  msgs.foldl (fun b m => (b.send_message m).1) cb

/-- An operation issued against the channel: a push of one message, or a pop. -/
inductive ChannelOp where
  | push : Message → ChannelOp
  | pop : ChannelOp
deriving DecidableEq, Repr

/-- Run one operation against the channel, keeping the updated state. -/
def applyOp (cb : CircularBuffer) : ChannelOp → CircularBuffer
  | ChannelOp.push m => (cb.send_message m).1
  | ChannelOp.pop => (cb.receive_message).1

/-- Run a whole sequence of operations against the channel. -/
def runOps (cb : CircularBuffer) (ops : List ChannelOp) : CircularBuffer :=
  ops.foldl applyOp cb

/-- Number of push operations in a sequence. -/
def pushCount : List ChannelOp → Nat
  | [] => 0
  | ChannelOp.push _ :: rest => pushCount rest + 1
  | ChannelOp.pop :: rest => pushCount rest

/-- Number of pops that actually return a message when the sequence is run
from the given state (pops on an empty channel do not count). -/
def successfulPops (cb : CircularBuffer) : List ChannelOp → Nat
  | [] => 0
  | op :: rest =>
      (match op with
        | ChannelOp.pop => if cb.buffer.isEmpty then 0 else 1
        | ChannelOp.push _ => 0) + successfulPops (applyOp cb op) rest

/-- A concrete message used by the witness theorems. -/
def demoMsg : Message := Message.new 4 [1, 2]

/-- A concrete one-slot-occupied channel used by the witness theorems. -/
def demoBuffer : CircularBuffer :=
  { buffer := [demoMsg], capacity := 2, write_count := 1, read_count := 0 }

/-- A concrete protocol state used by the witness theorems. -/
def demoProtocol : CommunicationProtocol :=
  { shared_buffer := demoBuffer, next_message := 5 }

/-- A concrete full channel of capacity 1 used by the witness theorems. -/
def fullBuffer : CircularBuffer :=
  { buffer := [Message.new 1 [5]], capacity := 1, write_count := 1, read_count := 0 }

/-! Checksum lemmas. -/

/-- Folding XOR from any accumulator factors the accumulator out. -/
lemma foldl_xor_shift (l : List Nat) (a : Nat) :
    l.foldl (fun acc byte => acc ^^^ byte) a
      = a ^^^ l.foldl (fun acc byte => acc ^^^ byte) 0 := by
  induction l generalizing a with
  | nil => simp
  | cons x xs ih =>
      simp only [List.foldl_cons]
      rw [ih (a ^^^ x), ih (0 ^^^ x), Nat.zero_xor, Nat.xor_assoc]

/-- Head-recursive characterisation of the checksum. -/
lemma calculate_checksum_cons (x : Nat) (xs : List Nat) :
    Message.calculate_checksum (x :: xs) = x ^^^ Message.calculate_checksum xs := by
  unfold Message.calculate_checksum
  simp only [List.foldl_cons, Nat.zero_xor]
  exact foldl_xor_shift xs x

/-- The checksum is the right XOR-fold over the payload bytes. -/
lemma calculate_checksum_eq_foldr (payload : List Nat) :
    Message.calculate_checksum payload
      = payload.foldr (fun byte acc => byte ^^^ acc) 0 := by
  induction payload with
  | nil => rfl
  | cons x xs ih => rw [calculate_checksum_cons, ih]; rfl

/-- An XOR-fold of bytes below 256 stays below 256. -/
lemma calculate_checksum_lt (payload : List Nat) (h : ∀ b ∈ payload, b < 256) :
    Message.calculate_checksum payload < 256 := by
  induction payload with
  | nil => simp [Message.calculate_checksum]
  | cons x xs ih =>
      rw [calculate_checksum_cons]
      have hx : x < 2 ^ 8 := h x (List.mem_cons_self x xs)
      have hxs : Message.calculate_checksum xs < 2 ^ 8 :=
        ih fun b hb => h b (List.mem_cons_of_mem x hb)
      exact Nat.xor_lt_two_pow hx hxs

/-- XOR shuffle used when the mutated byte sits at the head of the payload. -/
lemma xor_swap_cancel (b x c : Nat) : b ^^^ c = x ^^^ c ^^^ (b ^^^ x) := by
  rw [Nat.xor_assoc, Nat.xor_comm b x, ← Nat.xor_assoc c x, Nat.xor_comm c x, Nat.xor_assoc,
    ← Nat.xor_assoc, Nat.xor_self, Nat.zero_xor, Nat.xor_comm]

/-- Changing one payload byte shifts the checksum by the XOR of old and new byte. -/
lemma calculate_checksum_set (P : List Nat) (i b : Nat) (h : i < P.length) :
    Message.calculate_checksum (P.set i b)
      = Message.calculate_checksum P ^^^ (b ^^^ P.get ⟨i, h⟩) := by
  induction P generalizing i with
  | nil => simp at h
  | cons x xs ih =>
      cases i with
      | zero =>
          simp only [List.set_cons_zero, List.get, calculate_checksum_cons]
          exact xor_swap_cancel b x (Message.calculate_checksum xs)
      | succ j =>
          have hj : j < xs.length := by simpa using h
          simp only [List.set_cons_succ, List.get, calculate_checksum_cons]
          rw [ih j hj, Nat.xor_assoc]

/-! Claims C5, C6, C7. -/

/-- C5: the checksum is the XOR-fold of the payload bytes (0 on the empty
payload, staying an 8-bit value on byte inputs), and `Message.new` stores
exactly that checksum. -/
theorem checksum_is_xor_fold :
    (∀ id payload, (Message.new id payload).checksum = Message.calculate_checksum payload) ∧
    Message.calculate_checksum [] = 0 ∧
    (∀ payload, Message.calculate_checksum payload
        = payload.foldr (fun byte acc => byte ^^^ acc) 0) ∧
    (∀ payload, (∀ b ∈ payload, b < 256) → Message.calculate_checksum payload < 256) :=
  ⟨fun _ _ => rfl, rfl, calculate_checksum_eq_foldr, calculate_checksum_lt⟩

/-- Witness for C5 at a concrete payload. -/
theorem checksum_is_xor_fold_witness :
    Message.calculate_checksum [7, 3, 250] < 256 :=
  checksum_is_xor_fold.2.2.2 [7, 3, 250] (by decide)

/-- C6: a freshly constructed message always verifies. -/
theorem construct_verify_roundtrip (id : Nat) (payload : List Nat) :
    (Message.new id payload).verify_checksum = true := by
  simp [Message.new, Message.verify_checksum]

/-- C7: replacing one payload byte by a different byte after construction
makes verification fail. -/
theorem single_byte_corruption_detected (id : Nat) (P : List Nat) (i b : Nat)
    (hi : i < P.length) (hb : b ≠ P.get ⟨i, hi⟩) :
    Message.verify_checksum { Message.new id P with payload := P.set i b } = false := by
  unfold Message.verify_checksum
  simp only [Message.new, beq_eq_false_iff_ne, ne_eq]
  intro hEq
  apply hb
  have h0 : Message.calculate_checksum (P.set i b)
      = Message.calculate_checksum P ^^^ (b ^^^ P.get ⟨i, hi⟩) :=
    calculate_checksum_set P i b hi
  have h3 : Message.calculate_checksum P ^^^ (b ^^^ P.get ⟨i, hi⟩)
      = Message.calculate_checksum P := by
    rw [← h0, ← hEq]
  have h2 : b ^^^ P.get ⟨i, hi⟩ = 0 := by
    have h4 : Message.calculate_checksum P
          ^^^ (Message.calculate_checksum P ^^^ (b ^^^ P.get ⟨i, hi⟩))
        = Message.calculate_checksum P ^^^ Message.calculate_checksum P := by
      rw [h3]
    rwa [← Nat.xor_assoc, Nat.xor_self, Nat.zero_xor] at h4
  exact Nat.xor_eq_zero.mp h2

/-- Witness for C7: corrupting byte 1 of `[1, 2, 3]` from 2 to 5 is detected. -/
theorem single_byte_corruption_detected_witness :
    Message.verify_checksum { Message.new 9 [1, 2, 3] with payload := [1, 2, 3].set 1 5 }
      = false :=
  single_byte_corruption_detected 9 [1, 2, 3] 1 5 (by decide) (by decide)

/-! Claims C1 (as the code has it), C3, C4, C8, C10. -/

/-- C1 counterexample: constructing with capacity 0 does not fail — it
returns an ordinary empty channel (and an ordinary protocol), with no
error signalled anywhere. -/
theorem capacity_zero_construction_accepted :
    (CircularBuffer.new 0).length = 0 ∧
    (CircularBuffer.new 0).capacity = 0 ∧
    (CircularBuffer.new 0).is_empty = true ∧
    (CommunicationProtocol.new 0).shared_buffer = CircularBuffer.new 0 :=
  ⟨rfl, rfl, rfl, rfl⟩

/-- C1 amended: channel construction is total and never signals an error —
for every capacity, including 0, it returns an empty channel with both
counters at 0 and the requested capacity, and the protocol constructor
wraps exactly that channel. -/
theorem construction_never_fails (capacity : Nat) :
    (CircularBuffer.new capacity).buffer = [] ∧
    (CircularBuffer.new capacity).is_empty = true ∧
    (CircularBuffer.new capacity).write_count = 0 ∧
    (CircularBuffer.new capacity).read_count = 0 ∧
    (CircularBuffer.new capacity).capacity = capacity ∧
    (CommunicationProtocol.new capacity).shared_buffer = CircularBuffer.new capacity :=
  ⟨rfl, rfl, rfl, rfl, rfl, rfl⟩

/-- C3: on a channel of capacity ≥ 1 a push always returns `Ok`, always
bumps `write_count` by exactly 1, evicts exactly the front entry when the
channel is full, and just appends when it is not. -/
theorem push_always_succeeds (cb : CircularBuffer) (m : Message) (hcap : 1 ≤ cb.capacity) :
    (cb.send_message m).2 = Except.ok () ∧
    (cb.send_message m).1.write_count = cb.write_count + 1 ∧
    (cb.is_full = true → (cb.send_message m).1.buffer = cb.buffer.tail ++ [m]) ∧
    (cb.is_full = false → (cb.send_message m).1.buffer = cb.buffer ++ [m]) := by
  refine ⟨rfl, rfl, ?_, ?_⟩ <;>
    · intro hfull
      simp only [CircularBuffer.is_full, decide_eq_true_eq, decide_eq_false_iff_not] at hfull
      simp [CircularBuffer.send_message, hfull]

/-- Witness for C3 on a concrete full channel of capacity 1. -/
theorem push_always_succeeds_witness :
    (fullBuffer.send_message (Message.new 2 [6])).2 = Except.ok () ∧
    (fullBuffer.send_message (Message.new 2 [6])).1.write_count = fullBuffer.write_count + 1 ∧
    (fullBuffer.is_full = true →
      (fullBuffer.send_message (Message.new 2 [6])).1.buffer
        = fullBuffer.buffer.tail ++ [Message.new 2 [6]]) ∧
    (fullBuffer.is_full = false →
      (fullBuffer.send_message (Message.new 2 [6])).1.buffer
        = fullBuffer.buffer ++ [Message.new 2 [6]]) :=
  push_always_succeeds fullBuffer (Message.new 2 [6]) (by decide)

/-- C4: `mcu2_receive` returns the empty result exactly when the channel is
empty (leaving the state untouched); otherwise it removes the oldest
message `m`, bumps `read_count` by 1, and returns `(m, verify m)` whether
or not the checksum verifies. -/
theorem receive_returns_oldest_with_verdict (p : CommunicationProtocol) :
    ((p.mcu2_receive).2 = none ↔ p.shared_buffer.buffer = []) ∧
    (p.shared_buffer.buffer = [] → (p.mcu2_receive).1 = p) ∧
    (∀ m rest, p.shared_buffer.buffer = m :: rest →
      (p.mcu2_receive).2 = some (m, m.verify_checksum) ∧
      (p.mcu2_receive).1.shared_buffer.buffer = rest ∧
      (p.mcu2_receive).1.shared_buffer.read_count = p.shared_buffer.read_count + 1 ∧
      (p.mcu2_receive).1.shared_buffer.write_count = p.shared_buffer.write_count ∧
      (p.mcu2_receive).1.next_message = p.next_message) := by
  obtain ⟨⟨buf, cap, w, r⟩, nid⟩ := p
  cases buf with
  | nil =>
      refine ⟨by simp [CommunicationProtocol.mcu2_receive, CircularBuffer.receive_message], ?_, ?_⟩
      · intro _; rfl
      · intro m rest h; cases h
  | cons m rest =>
      refine ⟨by simp [CommunicationProtocol.mcu2_receive, CircularBuffer.receive_message], ?_, ?_⟩
      · intro h; cases h
      · intro m2 rest2 h
        injection h with h1 h2
        subst h1; subst h2
        exact ⟨rfl, rfl, rfl, rfl, rfl⟩

/-- Witness for C4 on a concrete one-message channel. -/
theorem receive_returns_oldest_with_verdict_witness :
    (demoProtocol.mcu2_receive).2 = some (demoMsg, demoMsg.verify_checksum) ∧
    (demoProtocol.mcu2_receive).1.shared_buffer.buffer = [] ∧
    (demoProtocol.mcu2_receive).1.shared_buffer.read_count
      = demoProtocol.shared_buffer.read_count + 1 ∧
    (demoProtocol.mcu2_receive).1.shared_buffer.write_count
      = demoProtocol.shared_buffer.write_count ∧
    (demoProtocol.mcu2_receive).1.next_message = demoProtocol.next_message :=
  (receive_returns_oldest_with_verdict demoProtocol).2.2 demoMsg [] rfl

/-- C8: the id counter starts at 1; every send returns the current
`next_message` as the assigned id (always `Ok`, regardless of buffer
state) and advances the counter by 1 modulo 2^16, so the id after 65535
is 0. -/
theorem id_sequencing :
    (∀ c, (CommunicationProtocol.new c).next_message = 1) ∧
    (∀ p : CommunicationProtocol, ∀ payload,
      (p.mcu1_send payload).2 = Except.ok p.next_message ∧
      (p.mcu1_send payload).1.next_message = (p.next_message + 1) % 65536) ∧
    (∀ p : CommunicationProtocol, ∀ payload, p.next_message = 65535 →
      (p.mcu1_send payload).1.next_message = 0) := by
  refine ⟨fun _ => rfl, fun p payload => ⟨rfl, rfl⟩, fun p payload h => ?_⟩
  show (p.next_message + 1) % 65536 = 0
  rw [h]

/-- Witness for C8: wraparound at the 16-bit boundary on a concrete state. -/
theorem id_sequencing_witness :
    (({ shared_buffer := CircularBuffer.new 3, next_message := 65535 } :
        CommunicationProtocol).mcu1_send [7]).1.next_message = 0 :=
  id_sequencing.2.2 { shared_buffer := CircularBuffer.new 3, next_message := 65535 } [7] rfl

/-- C10: a capacity-0 channel is constructed without error; it reports full
even when empty; every push still succeeds, evicting the front entry (when
one exists) and appending the new message, so from any state of length ≤ 1
a push leaves exactly one message, and the resulting length always exceeds
the capacity of 0. -/
theorem capacity_zero_push_behaviour (cb : CircularBuffer) (m : Message)
    (hcap : cb.capacity = 0) :
    (CircularBuffer.new 0).buffer = [] ∧
    cb.is_full = true ∧
    (cb.send_message m).2 = Except.ok () ∧
    (cb.send_message m).1.buffer = cb.buffer.tail ++ [m] ∧
    (cb.buffer.length ≤ 1 → (cb.send_message m).1.length = 1) ∧
    (cb.send_message m).1.capacity < (cb.send_message m).1.length := by
  have hfull : cb.buffer.length ≥ cb.capacity := by rw [hcap]; exact Nat.zero_le _
  refine ⟨rfl, by simpa [CircularBuffer.is_full], rfl, ?_, ?_, ?_⟩
  · simp [CircularBuffer.send_message, hfull]
  · intro hlen
    simp only [CircularBuffer.send_message, CircularBuffer.length, if_pos hfull,
      List.length_append, List.length_tail, List.length_cons, List.length_nil]
    omega
  · simp only [CircularBuffer.send_message, CircularBuffer.length, if_pos hfull,
      List.length_append, List.length_tail, List.length_cons, List.length_nil, hcap]
    omega

/-- Witness for C10: pushing onto an occupied capacity-0 channel. -/
theorem capacity_zero_push_behaviour_witness :
    (CircularBuffer.new 0).buffer = [] ∧
    ({ buffer := [demoMsg], capacity := 0, write_count := 1, read_count := 0 } :
        CircularBuffer).is_full = true ∧
    (({ buffer := [demoMsg], capacity := 0, write_count := 1, read_count := 0 } :
        CircularBuffer).send_message (Message.new 2 [9])).2 = Except.ok () ∧
    (({ buffer := [demoMsg], capacity := 0, write_count := 1, read_count := 0 } :
        CircularBuffer).send_message (Message.new 2 [9])).1.buffer
      = [demoMsg].tail ++ [Message.new 2 [9]] ∧
    ([demoMsg].length ≤ 1 →
      (({ buffer := [demoMsg], capacity := 0, write_count := 1, read_count := 0 } :
          CircularBuffer).send_message (Message.new 2 [9])).1.length = 1) ∧
    (({ buffer := [demoMsg], capacity := 0, write_count := 1, read_count := 0 } :
        CircularBuffer).send_message (Message.new 2 [9])).1.capacity
      < (({ buffer := [demoMsg], capacity := 0, write_count := 1, read_count := 0 } :
          CircularBuffer).send_message (Message.new 2 [9])).1.length :=
  capacity_zero_push_behaviour
    { buffer := [demoMsg], capacity := 0, write_count := 1, read_count := 0 }
    (Message.new 2 [9]) rfl

/-! Claim C2: capacity invariant. -/

/-- The buffer produced by one push, written as an explicit if-expression. -/
lemma send_message_fst_buffer (cb : CircularBuffer) (m : Message) :
    (cb.send_message m).1.buffer
      = (if cb.buffer.length ≥ cb.capacity then cb.buffer.tail else cb.buffer) ++ [m] := rfl

/-- A push never changes the capacity field. -/
lemma send_message_fst_capacity (cb : CircularBuffer) (m : Message) :
    (cb.send_message m).1.capacity = cb.capacity := rfl

/-- Unfolding `pushAll` one step. -/
lemma pushAll_cons (cb : CircularBuffer) (m : Message) (rest : List Message) :
    pushAll cb (m :: rest) = pushAll (cb.send_message m).1 rest := rfl

/-- Running a sequence of pushes keeps exactly the newest entries: the
resulting queue is the concatenation of old queue and pushed messages with
everything beyond the capacity dropped from the front. -/
lemma pushAll_buffer_drop :
    ∀ (msgs : List Message) (cb : CircularBuffer),
      1 ≤ cb.capacity → cb.buffer.length ≤ cb.capacity →
      (pushAll cb msgs).buffer
        = (cb.buffer ++ msgs).drop (cb.buffer.length + msgs.length - cb.capacity)
  | [], cb, _, hlen => by
      simp only [pushAll, List.foldl_nil, List.append_nil, List.length_nil, Nat.add_zero]
      rw [Nat.sub_eq_zero_of_le hlen, List.drop_zero]
  | m :: rest, cb, hC, hlen => by
      rw [pushAll_cons]
      by_cases hge : cb.buffer.length ≥ cb.capacity
      · have hLeq : cb.buffer.length = cb.capacity := Nat.le_antisymm hlen hge
        obtain ⟨x, t, hxt⟩ : ∃ x t, cb.buffer = x :: t := by
          cases hbuf : cb.buffer with
          | nil => rw [hbuf] at hLeq; simp at hLeq; omega
          | cons x t => exact ⟨x, t, rfl⟩
        have hbuf2 : (cb.send_message m).1.buffer = t ++ [m] := by
          rw [send_message_fst_buffer, if_pos hge, hxt]; rfl
        have hlen2 : (cb.send_message m).1.buffer.length ≤ (cb.send_message m).1.capacity := by
          rw [hbuf2, send_message_fst_capacity, ← hLeq, hxt]
          simp
        have hC2 : 1 ≤ (cb.send_message m).1.capacity := by
          rw [send_message_fst_capacity]; exact hC
        rw [pushAll_buffer_drop rest _ hC2 hlen2, hbuf2, send_message_fst_capacity]
        have hlt : t.length + 1 = cb.capacity := by
          rw [← hLeq, hxt]; rfl
        have hdrop1 : (t ++ [m]).length + rest.length - cb.capacity = rest.length := by
          simp only [List.length_append, List.length_cons, List.length_nil]
          omega
        have hdrop2 : cb.buffer.length + (m :: rest).length - cb.capacity
            = rest.length + 1 := by
          rw [hxt]
          simp only [List.length_cons]
          omega
        rw [hdrop1, hdrop2, hxt]
        simp only [List.cons_append, List.drop_succ_cons, List.append_assoc,
          List.singleton_append, List.nil_append]
      · have hbuf2 : (cb.send_message m).1.buffer = cb.buffer ++ [m] := by
          rw [send_message_fst_buffer, if_neg hge]
        have hlen2 : (cb.send_message m).1.buffer.length ≤ (cb.send_message m).1.capacity := by
          rw [hbuf2, send_message_fst_capacity]
          simp only [List.length_append, List.length_cons, List.length_nil]
          omega
        have hC2 : 1 ≤ (cb.send_message m).1.capacity := by
          rw [send_message_fst_capacity]; exact hC
        rw [pushAll_buffer_drop rest _ hC2 hlen2, hbuf2, send_message_fst_capacity]
        have hdrop : (cb.buffer ++ [m]).length + rest.length - cb.capacity
            = cb.buffer.length + (m :: rest).length - cb.capacity := by
          simp only [List.length_append, List.length_cons, List.length_nil]
          omega
        rw [hdrop, List.append_assoc, List.singleton_append]

/-- C2: for a channel of capacity C ≥ 1, after N ≥ C pushes with no pops the
length is exactly C and the queue holds exactly the last C pushed messages,
in push order. -/
theorem capacity_invariant (C : Nat) (msgs : List Message)
    (hC : 1 ≤ C) (hN : C ≤ msgs.length) :
    (pushAll (CircularBuffer.new C) msgs).length = C ∧
    (pushAll (CircularBuffer.new C) msgs).buffer = msgs.drop (msgs.length - C) := by
  have hbuf : (pushAll (CircularBuffer.new C) msgs).buffer
      = msgs.drop (msgs.length - C) := by
    have h := pushAll_buffer_drop msgs (CircularBuffer.new C) hC (by simp [CircularBuffer.new])
    simpa [CircularBuffer.new] using h
  refine ⟨?_, hbuf⟩
  rw [CircularBuffer.length, hbuf, List.length_drop]
  omega

/-- Witness for C2: capacity 2, three pushes keep the last two messages. -/
theorem capacity_invariant_witness :
    (pushAll (CircularBuffer.new 2) [Message.new 1 [1], Message.new 2 [2], Message.new 3 [3]]).length = 2 ∧
    (pushAll (CircularBuffer.new 2) [Message.new 1 [1], Message.new 2 [2], Message.new 3 [3]]).buffer
      = [Message.new 1 [1], Message.new 2 [2], Message.new 3 [3]].drop
          ([Message.new 1 [1], Message.new 2 [2], Message.new 3 [3]].length - 2) :=
  capacity_invariant 2 [Message.new 1 [1], Message.new 2 [2], Message.new 3 [3]]
    (by decide) (by decide)

/-! Claim C9: count invariant. -/

/-- Running a sequence of operations adds exactly the push total to
`write_count` and exactly the successful-pop total to `read_count`. -/
lemma runOps_write_read :
    ∀ (ops : List ChannelOp) (cb : CircularBuffer),
      (runOps cb ops).write_count = cb.write_count + pushCount ops ∧
      (runOps cb ops).read_count = cb.read_count + successfulPops cb ops
  | [], cb => by simp [runOps, pushCount, successfulPops]
  | ChannelOp.push m :: rest, cb => by
      have ih := runOps_write_read rest (applyOp cb (ChannelOp.push m))
      have hrun : runOps cb (ChannelOp.push m :: rest)
          = runOps (applyOp cb (ChannelOp.push m)) rest := rfl
      have hw : (applyOp cb (ChannelOp.push m)).write_count = cb.write_count + 1 := rfl
      have hr : (applyOp cb (ChannelOp.push m)).read_count = cb.read_count := rfl
      rw [hrun, ih.1, ih.2, hw, hr]
      constructor
      · show cb.write_count + 1 + pushCount rest = cb.write_count + (pushCount rest + 1)
        omega
      · show cb.read_count + successfulPops (applyOp cb (ChannelOp.push m)) rest
            = cb.read_count + (0 + successfulPops (applyOp cb (ChannelOp.push m)) rest)
        omega
  | ChannelOp.pop :: rest, cb => by
      have ih := runOps_write_read rest (applyOp cb ChannelOp.pop)
      have hrun : runOps cb (ChannelOp.pop :: rest)
          = runOps (applyOp cb ChannelOp.pop) rest := rfl
      cases hbuf : cb.buffer with
      | nil =>
          have hid : applyOp cb ChannelOp.pop = cb := by
            simp [applyOp, CircularBuffer.receive_message, hbuf]
          rw [hrun, ih.1, ih.2, hid]
          have hsp : successfulPops cb (ChannelOp.pop :: rest)
              = successfulPops (applyOp cb ChannelOp.pop) rest := by
            simp [successfulPops, hbuf, List.isEmpty]
          rw [hsp, hid]
          exact ⟨rfl, rfl⟩
      | cons x t =>
          have hw2 : (applyOp cb ChannelOp.pop).write_count = cb.write_count := by
            simp [applyOp, CircularBuffer.receive_message, hbuf]
          have hr2 : (applyOp cb ChannelOp.pop).read_count = cb.read_count + 1 := by
            simp [applyOp, CircularBuffer.receive_message, hbuf]
          have hsp : successfulPops cb (ChannelOp.pop :: rest)
              = 1 + successfulPops (applyOp cb ChannelOp.pop) rest := by
            simp [successfulPops, hbuf, List.isEmpty]
          rw [hrun, ih.1, ih.2, hw2, hr2, hsp]
          exact ⟨rfl, by omega⟩

/-- C9: from a fresh channel, `write_count` equals the number of push calls
issued and `read_count` the number of successful pops, whatever the mix of
operations; and no single operation decreases either counter. -/
theorem count_invariant (c : Nat) (ops : List ChannelOp) :
    (runOps (CircularBuffer.new c) ops).write_count = pushCount ops ∧
    (runOps (CircularBuffer.new c) ops).read_count
      = successfulPops (CircularBuffer.new c) ops ∧
    (∀ (cb : CircularBuffer) (op : ChannelOp),
      cb.write_count ≤ (applyOp cb op).write_count ∧
      cb.read_count ≤ (applyOp cb op).read_count) := by
  have h := runOps_write_read ops (CircularBuffer.new c)
  refine ⟨by simpa [CircularBuffer.new] using h.1, by simpa [CircularBuffer.new] using h.2, ?_⟩
  intro cb op
  have hstep := runOps_write_read [op] cb
  have hrun : runOps cb [op] = applyOp cb op := rfl
  rw [hrun] at hstep
  omega
